import Mathlib

/-!
Verification development for the Bybit historical-data downloader
(file src/bybit_data_downloader/historical/ByBitHistoricalDataDownloader.py).

The core modelled here is the batch download engine:

  * download_file models the method _download_file(file_info, output_dir):
    skip-if-already-complete check, mkdir of the parent directory, then a
    retry loop of max_retries = 3 attempts.  Each attempt either raises an
    exception (transport / HTTP error, or a filesystem write error - the
    code catches both with the same broad except clause), or completes the
    stream having written n bytes.  A completed attempt whose byte count
    differs from a known positive expected size deletes the file and
    continues the loop (no sleep); an exception-based failure deletes any
    file present and, when attempts remain, sleeps 2 ^ attempt seconds.

  * download_data models the method download_data aggregation step: it maps
    download_file over the list of file-info records and counts results,
    returning the statistics dictionary
    (total_files, downloaded, failed).  An exception escaping a fetch task
    (modelled by the outcome raised, e.g. a failing mkdir at line 238,
    which sits outside the try block) is caught around future.result() and
    counted as failed.

The environment of one fetch is explicit: the filesystem state of the
single target path is an Option Nat (absent, or present with a size), and
the network / OS behaviour of the i-th attempt is given by a function
Nat -> AttemptEvent.  Every run of the model also records an event trace
(network attempts, file writes, deletions, backoff sleeps) so that claims
about "no network call" or "sleeps before retrying" can be stated.

The date-range splitter _split_date_range is modelled over dates as day
numbers (datetime values differing by timedelta(days = k) become Nat
values differing by k; strptime/strftime are a bijection between valid
date strings and day numbers and do not affect the splitting logic).
-/

namespace BybitDownloader

/-- File-info record as consumed by download_file: the url and filename
fields of the API record, and the integer size field, where 0 stands for
an absent or unknown size (the code reads int(file_info.get('size', 0))). -/
structure FileInfo where
  url : String
  filename : String
  size : Nat
deriving DecidableEq, Repr

/-- Behaviour of one iteration of the retry loop, as decided by the
environment (network and OS).  netError covers transport errors and
raise_for_status on a non-2xx response; writeError covers a filesystem
exception raised while opening or writing the target file (caught by the
same broad except clause); completed n means the stream finished with n
bytes written to the file.  For the two error cases, fileAtError is the
state of the target file at the moment the exception is raised (the
cleanup code deletes the file only if it exists). -/
inductive AttemptEvent where
  | netError (fileAtError : Option Nat)
  | writeError (fileAtError : Option Nat)
  | completed (n : Nat)
deriving DecidableEq, Repr

/-- Observable actions of one fetch, recorded as a trace. -/
inductive Event where
  | mkdirCall
  | networkAttempt (idx : Nat)
  | fileWrite (n : Nat)
  | unlinkCall
  | sleepCall (seconds : Nat)
deriving DecidableEq, Repr

/-- Result of one fetch.  The code returns True for both the
already-complete skip (line 235) and a fresh successful download
(line 261), and False after exhausting retries (line 272); raised stands
for an exception propagating out of _download_file (e.g. mkdir failure at
line 238), which the engine catches around future.result(). -/
inductive FetchOutcome where
  | success (bytesWritten : Nat)
  | skipped
  | failed (attemptsMade : Nat)
  | raised
deriving DecidableEq, Repr

/-- Environment of one fetch: whether the mkdir call at line 238 raises,
and the behaviour of each attempt of the retry loop. -/
structure FetchEnv where
  mkdirFails : Bool
  attempts : Nat → AttemptEvent

/-- State after one fetch: the outcome, the final state of the target
file on disk, and the recorded event trace. -/
structure FetchResult where
  outcome : FetchOutcome
  fs : Option Nat
  events : List Event
deriving DecidableEq, Repr

/-- Hard-coded retry budget of the loop at line 240: max_retries = 3. -/
def max_retries : Nat := 3

/-- The size check at line 255: expected_size > 0 and actual != expected. -/
def sizeBad (info : FileInfo) (n : Nat) : Bool :=
  decide (0 < info.size) && decide (n ≠ info.size)

/-- The skip check at lines 231-235: the file exists, the expected size is
known and positive, and the on-disk size equals it. -/
def skipCheck (info : FileInfo) (fs0 : Option Nat) : Bool :=
  match fs0 with
  | some sz => decide (0 < info.size) && decide (sz = info.size)
  | none => false

/-- The retry loop of _download_file (lines 240-272).  Arguments: number
of attempts remaining, index of the current attempt (0-based), state of
the target file, trace so far.  A completed attempt with a bad size
deletes the file and continues without sleeping (lines 255-258); an
exception-based failure deletes the file if present and sleeps
2 ^ attempt seconds when attempts remain (lines 263-269); exhausting the
loop returns failure with the number of attempts made (lines 271-272). -/
def attemptLoop (info : FileInfo) (env : FetchEnv) :
    Nat → Nat → Option Nat → List Event → FetchResult
  | 0, attempt, fs, evs => ⟨.failed attempt, fs, evs⟩
  | r + 1, attempt, _fs, evs =>
    match env.attempts attempt with
    | .completed n =>
      if sizeBad info n then
        attemptLoop info env r (attempt + 1) none
          (evs ++ [.networkAttempt attempt, .fileWrite n, .unlinkCall])
      else
        ⟨.success n, some n, evs ++ [.networkAttempt attempt, .fileWrite n]⟩
    | .netError fileAtError =>
      attemptLoop info env r (attempt + 1) none
        (evs ++ [.networkAttempt attempt]
             ++ (if fileAtError.isSome then [.unlinkCall] else [])
             ++ (if 0 < r then [.sleepCall (2 ^ attempt)] else []))
    | .writeError fileAtError =>
      attemptLoop info env r (attempt + 1) none
        (evs ++ [.networkAttempt attempt]
             ++ (if fileAtError.isSome then [.unlinkCall] else [])
             ++ (if 0 < r then [.sleepCall (2 ^ attempt)] else []))

/-- Model of _download_file (lines 215-272): skip check, then mkdir (a
failing mkdir raises out of the function, since line 238 is outside every
try block), then the retry loop starting at attempt 0. -/
def download_file (info : FileInfo) (fs0 : Option Nat) (env : FetchEnv) :
    FetchResult :=
  if skipCheck info fs0 then ⟨.skipped, fs0, []⟩
  else if env.mkdirFails then ⟨.raised, fs0, [.mkdirCall]⟩
  else attemptLoop info env max_retries 0 fs0 [.mkdirCall]

/-- Classification used by the engine loop at lines 341-349: a True
result (success or skip) increments successful, a False result or an
exception raised by the task increments failed. -/
def countsAsSuccess : FetchOutcome → Bool
  | .success _ => true
  | .skipped => true
  | .failed _ => false
  | .raised => false

/-- The statistics dictionary returned by download_data
(lines 320 and 351-355). -/
structure Report where
  total_files : Nat
  downloaded : Nat
  failed : Nat
deriving DecidableEq, Repr

/-- Model of the aggregation step of download_data (lines 318-358): with
no files, the zero report of line 320; otherwise every file-info is
submitted exactly once (the dict comprehension at lines 333-336 keyed by
distinct futures) and each result is folded into the counters.  fsOf
gives the on-disk state of each descriptor target path and envOf its
fetch environment; counting is order-independent, so the
completion-order iteration of as_completed is modelled by a map over the
input list. -/
def download_data (files : List FileInfo) (fsOf : FileInfo → Option Nat)
    (envOf : FileInfo → FetchEnv) : Report :=
  if files.isEmpty then ⟨0, 0, 0⟩
  else
    ⟨files.length,
     (files.map (fun i => download_file i (fsOf i) (envOf i))).countP
       (fun r => countsAsSuccess r.outcome),
     (files.map (fun i => download_file i (fsOf i) (envOf i))).countP
       (fun r => !countsAsSuccess r.outcome)⟩

/-- An attempt behaviour that the retry loop treats as a failed attempt:
any exception, or a completed stream whose length fails the size check. -/
def attemptFails (info : FileInfo) : AttemptEvent → Bool
  | .netError _ => true
  | .writeError _ => true
  | .completed n => sizeBad info n

/-- Whether an attempt behaviour is exception-based (as opposed to a
completed stream with a bad size). -/
def isException : AttemptEvent → Bool
  | .netError _ => true
  | .writeError _ => true
  | .completed _ => false

/-- Recognises a backoff sleep in the trace. -/
def isSleepEv : Event → Bool
  | .sleepCall _ => true
  | _ => false

/-- Recognises a network attempt in the trace. -/
def isNetworkEv : Event → Bool
  | .networkAttempt _ => true
  | _ => false

/-- Model of _split_date_range (lines 147-172) over day numbers: the
while loop emits (current_start, min (current_start + 6) end) and resumes
the day after the emitted chunk ends, until current_start passes end. -/
def splitGo (e : Nat) (cs : Nat) : List (Nat × Nat) :=
  if h : cs ≤ e then
    (cs, min (cs + 6) e) :: splitGo e (min (cs + 6) e + 1)
  else []
termination_by e + 1 - cs
decreasing_by omega

/-- Model of _split_date_range: chunks covering the days s to e. -/
def split_date_range (s e : Nat) : List (Nat × Nat) :=
  splitGo e s

/-- Counting a predicate and its negation over a list adds up to its
length. -/
theorem countP_add_countP_not {α : Type} (p : α → Bool) (l : List α) :
    l.countP p + l.countP (fun a => !p a) = l.length := by
  induction l with
  | nil => simp
  | cons a l ih =>
    by_cases h : p a
    · simp [List.countP_cons, h]
      omega
    · simp [List.countP_cons, h]
      omega

/-- The report of download_data, written uniformly: the empty-list early
return coincides with the general counting formula. -/
theorem download_data_eq (files : List FileInfo) (fsOf : FileInfo → Option Nat)
    (envOf : FileInfo → FetchEnv) :
    download_data files fsOf envOf =
      ⟨files.length,
       files.countP (fun i => countsAsSuccess (download_file i (fsOf i) (envOf i)).outcome),
       files.countP (fun i => !countsAsSuccess (download_file i (fsOf i) (envOf i)).outcome)⟩ := by
  cases files with
  | nil => rfl
  | cons a l =>
    simp only [download_data, List.isEmpty_cons, List.countP_map]
    rfl

/-- Inserting a descriptor whose fetch is classified as a failure adds
exactly one to the failure count and leaves the other descriptors'
classification untouched. -/
theorem download_data_isolate (l1 l2 : List FileInfo) (d : FileInfo)
    (fsOf : FileInfo → Option Nat) (envOf : FileInfo → FetchEnv)
    (hfail : countsAsSuccess (download_file d (fsOf d) (envOf d)).outcome = false) :
    download_data (l1 ++ d :: l2) fsOf envOf =
      ⟨(l1 ++ l2).length + 1,
       (download_data (l1 ++ l2) fsOf envOf).downloaded,
       (download_data (l1 ++ l2) fsOf envOf).failed + 1⟩ := by
  rw [download_data_eq, download_data_eq]
  simp [List.countP_append, List.countP_cons, hfail, Report.mk.injEq]
  omega

/-- A successful retry loop returns the bytes it wrote: the size check
passed and the file on disk holds exactly those bytes. -/
theorem attemptLoop_success (info : FileInfo) (env : FetchEnv) :
    ∀ r a fs evs n, (attemptLoop info env r a fs evs).outcome = .success n →
      sizeBad info n = false ∧ (attemptLoop info env r a fs evs).fs = some n := by
  intro r
  induction r with
  | zero =>
    intro a fs evs n h
    simp [attemptLoop] at h
  | succ r ih =>
    intro a fs evs n h
    cases henv : env.attempts a with
    | completed m =>
      by_cases hbad : sizeBad info m
      · rw [attemptLoop, henv] at h ⊢
        simp only [hbad, if_true] at h ⊢
        exact ih _ _ _ _ h
      · rw [attemptLoop, henv] at h ⊢
        simp only [hbad, if_false, Bool.false_eq_true] at h ⊢
        simp only [FetchOutcome.success.injEq] at h
        subst h
        exact ⟨by simpa using hbad, rfl⟩
    | netError f =>
      rw [attemptLoop, henv] at h ⊢
      exact ih _ _ _ _ h
    | writeError f =>
      rw [attemptLoop, henv] at h ⊢
      exact ih _ _ _ _ h

/-- Starting the retry loop with no file on disk, the final file state is
either absent or the loop succeeded and the file holds the returned
bytes. -/
theorem attemptLoop_none_fs (info : FileInfo) (env : FetchEnv) :
    ∀ r a evs, (attemptLoop info env r a none evs).fs = none ∨
      ∃ n, (attemptLoop info env r a none evs).outcome = .success n := by
  intro r
  induction r with
  | zero =>
    intro a evs
    left
    simp [attemptLoop]
  | succ r ih =>
    intro a evs
    cases henv : env.attempts a with
    | completed m =>
      by_cases hbad : sizeBad info m
      · rw [attemptLoop, henv]
        simp only [hbad, if_true]
        exact ih _ _
      · rw [attemptLoop, henv]
        simp only [hbad, if_false, Bool.false_eq_true]
        right
        exact ⟨m, rfl⟩
    | netError f =>
      rw [attemptLoop, henv]
      exact ih _ _
    | writeError f =>
      rw [attemptLoop, henv]
      exact ih _ _

/-- When the retry loop is entered with at least one attempt available
and ends in failure, no file is left on disk. -/
theorem attemptLoop_failed_fs (info : FileInfo) (env : FetchEnv)
    (r a : Nat) (fs : Option Nat) (evs : List Event) (k : Nat)
    (hr : 0 < r)
    (h : (attemptLoop info env r a fs evs).outcome = .failed k) :
    (attemptLoop info env r a fs evs).fs = none := by
  cases r with
  | zero => omega
  | succ r =>
    cases henv : env.attempts a with
    | completed m =>
      by_cases hbad : sizeBad info m
      · rw [attemptLoop, henv] at h ⊢
        simp only [hbad, if_true] at h ⊢
        rcases attemptLoop_none_fs info env r (a + 1)
            (evs ++ [.networkAttempt a, .fileWrite m, .unlinkCall]) with hn | ⟨n, hs⟩
        · exact hn
        · rw [hs] at h
          exact absurd h (by simp)
      · rw [attemptLoop, henv] at h
        simp only [hbad, if_false, Bool.false_eq_true] at h
        exact absurd h (by simp)
    | netError f =>
      rw [attemptLoop, henv] at h ⊢
      rcases attemptLoop_none_fs info env r (a + 1) _ with hn | ⟨n, hs⟩
      · exact hn
      · rw [hs] at h
        exact absurd h (by simp)
    | writeError f =>
      rw [attemptLoop, henv] at h ⊢
      rcases attemptLoop_none_fs info env r (a + 1) _ with hn | ⟨n, hs⟩
      · exact hn
      · rw [hs] at h
        exact absurd h (by simp)

/-- A failing retry loop reports exactly the number of attempts it was
allowed to make: entering at attempt index a with r attempts remaining,
failure carries a + r attempts made. -/
theorem attemptLoop_failed_count (info : FileInfo) (env : FetchEnv) :
    ∀ r a fs evs k, (attemptLoop info env r a fs evs).outcome = .failed k →
      k = a + r := by
  intro r
  induction r with
  | zero =>
    intro a fs evs k h
    simp [attemptLoop] at h
    omega
  | succ r ih =>
    intro a fs evs k h
    cases henv : env.attempts a with
    | completed m =>
      by_cases hbad : sizeBad info m
      · rw [attemptLoop, henv] at h
        simp only [hbad, if_true] at h
        have := ih _ _ _ _ h
        omega
      · rw [attemptLoop, henv] at h
        simp only [hbad, if_false, Bool.false_eq_true] at h
        exact absurd h (by simp)
    | netError f =>
      rw [attemptLoop, henv] at h
      have := ih _ _ _ _ h
      omega
    | writeError f =>
      rw [attemptLoop, henv] at h
      have := ih _ _ _ _ h
      omega

/-- If every available attempt fails, the retry loop exhausts its budget
and fails with a + r attempts made. -/
theorem attemptLoop_all_fail (info : FileInfo) (env : FetchEnv) :
    ∀ r a fs evs, (∀ j, j < r → attemptFails info (env.attempts (a + j)) = true) →
      (attemptLoop info env r a fs evs).outcome = .failed (a + r) := by
  intro r
  induction r with
  | zero =>
    intro a fs evs _
    simp [attemptLoop]
  | succ r ih =>
    intro a fs evs hall
    have h0 : attemptFails info (env.attempts a) = true := by
      simpa using hall 0 (by omega)
    have hshift : ∀ j, j < r → attemptFails info (env.attempts (a + 1 + j)) = true := by
      intro j hj
      have h := hall (j + 1) (by omega)
      rw [show a + 1 + j = a + (j + 1) from by omega]
      exact h
    cases henv : env.attempts a with
    | completed m =>
      have hbad : sizeBad info m = true := by
        rw [henv] at h0
        simpa [attemptFails] using h0
      rw [attemptLoop, henv]
      simp only [hbad, if_true]
      rw [show a + (r + 1) = a + 1 + r from by omega]
      exact ih (a + 1) none _ hshift
    | netError f =>
      rw [attemptLoop, henv]
      rw [show a + (r + 1) = a + 1 + r from by omega]
      exact ih (a + 1) none _ hshift
    | writeError f =>
      rw [attemptLoop, henv]
      rw [show a + (r + 1) = a + 1 + r from by omega]
      exact ih (a + 1) none _ hshift

/-- If the first j attempts fail and attempt j completes with an
acceptable size, the retry loop succeeds with those bytes written. -/
theorem attemptLoop_first_success (info : FileInfo) (env : FetchEnv) :
    ∀ j r a fs evs n, j < r →
      (∀ t, t < j → attemptFails info (env.attempts (a + t)) = true) →
      env.attempts (a + j) = .completed n → sizeBad info n = false →
      (attemptLoop info env r a fs evs).outcome = .success n ∧
      (attemptLoop info env r a fs evs).fs = some n := by
  intro j
  induction j with
  | zero =>
    intro r a fs evs n hr _hprev henv hgood
    cases r with
    | zero => omega
    | succ r =>
      rw [Nat.add_zero] at henv
      rw [attemptLoop, henv]
      simp [hgood]
  | succ j ih =>
    intro r a fs evs n hr hprev henv hgood
    cases r with
    | zero => omega
    | succ r =>
      have h0 : attemptFails info (env.attempts a) = true := by
        simpa using hprev 0 (by omega)
      have hshift : ∀ t, t < j → attemptFails info (env.attempts (a + 1 + t)) = true := by
        intro t ht
        have h := hprev (t + 1) (by omega)
        rw [show a + 1 + t = a + (t + 1) from by omega]
        exact h
      have henv1 : env.attempts (a + 1 + j) = .completed n := by
        rw [show a + 1 + j = a + (j + 1) by omega]
        exact henv
      cases henv0 : env.attempts a with
      | completed m =>
        have hbad : sizeBad info m = true := by
          rw [henv0] at h0
          simpa [attemptFails] using h0
        rw [attemptLoop, henv0]
        simp only [hbad, if_true]
        exact ih r (a + 1) none _ n (by omega) hshift henv1 hgood
      | netError f =>
        rw [attemptLoop, henv0]
        exact ih r (a + 1) none _ n (by omega) hshift henv1 hgood
      | writeError f =>
        rw [attemptLoop, henv0]
        exact ih r (a + 1) none _ n (by omega) hshift henv1 hgood

/-- C1: for every run of the engine over a non-empty descriptor list that
completes, the returned report satisfies total = succeeded + failed,
total equals the number of input descriptors, and every descriptor
contributes exactly one outcome: it is counted by the success predicate
or by its exact complement, never by both or neither. -/
theorem C1_report_accounting (files : List FileInfo)
    (fsOf : FileInfo → Option Nat) (envOf : FileInfo → FetchEnv)
    (_hne : files ≠ []) :
    (download_data files fsOf envOf).total_files = files.length ∧
    (download_data files fsOf envOf).total_files =
      (download_data files fsOf envOf).downloaded +
        (download_data files fsOf envOf).failed ∧
    (download_data files fsOf envOf).downloaded =
      files.countP
        (fun i => countsAsSuccess (download_file i (fsOf i) (envOf i)).outcome) ∧
    (download_data files fsOf envOf).failed =
      files.countP
        (fun i => !countsAsSuccess (download_file i (fsOf i) (envOf i)).outcome) := by
  rw [download_data_eq]
  refine ⟨rfl, ?_, rfl, rfl⟩
  exact (countP_add_countP_not
    (fun i => countsAsSuccess (download_file i (fsOf i) (envOf i)).outcome) files).symm

/-- Witness for C1: a concrete two-descriptor run (one always-failing
fetch, one successful fetch) with total 2 = 1 + 1. -/
theorem C1_report_accounting_witness :
    ([⟨"https://a", "a.zip", 5⟩, ⟨"https://b", "b.zip", 0⟩] :
        List FileInfo) ≠ [] ∧
    (download_data [⟨"https://a", "a.zip", 5⟩, ⟨"https://b", "b.zip", 0⟩]
        (fun _ => none)
        (fun i => if i.filename = "a.zip" then ⟨false, fun _ => .netError none⟩
                  else ⟨false, fun _ => .completed 7⟩)).total_files = 2 ∧
    (download_data [⟨"https://a", "a.zip", 5⟩, ⟨"https://b", "b.zip", 0⟩]
        (fun _ => none)
        (fun i => if i.filename = "a.zip" then ⟨false, fun _ => .netError none⟩
                  else ⟨false, fun _ => .completed 7⟩)).total_files =
      (download_data [⟨"https://a", "a.zip", 5⟩, ⟨"https://b", "b.zip", 0⟩]
        (fun _ => none)
        (fun i => if i.filename = "a.zip" then ⟨false, fun _ => .netError none⟩
                  else ⟨false, fun _ => .completed 7⟩)).downloaded +
      (download_data [⟨"https://a", "a.zip", 5⟩, ⟨"https://b", "b.zip", 0⟩]
        (fun _ => none)
        (fun i => if i.filename = "a.zip" then ⟨false, fun _ => .netError none⟩
                  else ⟨false, fun _ => .completed 7⟩)).failed := by
  refine ⟨by decide, ?_, ?_⟩
  · have h := C1_report_accounting
      [⟨"https://a", "a.zip", 5⟩, ⟨"https://b", "b.zip", 0⟩]
      (fun _ => none)
      (fun i => if i.filename = "a.zip" then ⟨false, fun _ => .netError none⟩
                else ⟨false, fun _ => .completed 7⟩)
      (by decide)
    rw [h.1]
    rfl
  · exact (C1_report_accounting
      [⟨"https://a", "a.zip", 5⟩, ⟨"https://b", "b.zip", 0⟩]
      (fun _ => none)
      (fun i => if i.filename = "a.zip" then ⟨false, fun _ => .netError none⟩
                else ⟨false, fun _ => .completed 7⟩)
      (by decide)).2.1

/-- C2: a per-descriptor error, including an exception escaping the fetch
task (outcome raised), never escapes the batch run and never disturbs the
sibling descriptors: the failing descriptor is recorded as exactly one
failure, the other descriptors contribute to the report exactly what they
contribute to a run without it, and the report stays complete
(total = number of descriptors). -/
theorem C2_failure_isolation (l1 l2 : List FileInfo) (d : FileInfo)
    (fsOf : FileInfo → Option Nat) (envOf : FileInfo → FetchEnv)
    (hfail : countsAsSuccess (download_file d (fsOf d) (envOf d)).outcome = false) :
    download_data (l1 ++ d :: l2) fsOf envOf =
      ⟨(l1 ++ l2).length + 1,
       (download_data (l1 ++ l2) fsOf envOf).downloaded,
       (download_data (l1 ++ l2) fsOf envOf).failed + 1⟩ :=
  download_data_isolate l1 l2 d fsOf envOf hfail

/-- Witness for C2: a raising fetch (failing mkdir) placed between two
successful descriptors yields report (3, 2, 1). -/
theorem C2_failure_isolation_witness :
    countsAsSuccess (download_file (⟨"https://bad", "bad.zip", 5⟩ : FileInfo)
        ((fun _ => (none : Option Nat)) (⟨"https://bad", "bad.zip", 5⟩ : FileInfo))
        ((fun i => if i.filename = "bad.zip" then (⟨true, fun _ => .netError none⟩ : FetchEnv)
                   else ⟨false, fun _ => .completed 7⟩)
          (⟨"https://bad", "bad.zip", 5⟩ : FileInfo))).outcome = false ∧
    download_data
        (([⟨"https://a", "a.zip", 0⟩] : List FileInfo) ++
          (⟨"https://bad", "bad.zip", 5⟩ : FileInfo) ::
          ([⟨"https://b", "b.zip", 0⟩] : List FileInfo))
        (fun _ => none)
        (fun i => if i.filename = "bad.zip" then ⟨true, fun _ => .netError none⟩
                  else ⟨false, fun _ => .completed 7⟩) =
      (⟨(([⟨"https://a", "a.zip", 0⟩] : List FileInfo) ++
           ([⟨"https://b", "b.zip", 0⟩] : List FileInfo)).length + 1,
       (download_data (([⟨"https://a", "a.zip", 0⟩] : List FileInfo) ++
            ([⟨"https://b", "b.zip", 0⟩] : List FileInfo))
          (fun _ => none)
          (fun i => if i.filename = "bad.zip" then ⟨true, fun _ => .netError none⟩
                    else ⟨false, fun _ => .completed 7⟩)).downloaded,
       (download_data (([⟨"https://a", "a.zip", 0⟩] : List FileInfo) ++
            ([⟨"https://b", "b.zip", 0⟩] : List FileInfo))
          (fun _ => none)
          (fun i => if i.filename = "bad.zip" then ⟨true, fun _ => .netError none⟩
                    else ⟨false, fun _ => .completed 7⟩)).failed + 1⟩ : Report) := by
  refine ⟨by decide, ?_⟩
  exact C2_failure_isolation [⟨"https://a", "a.zip", 0⟩] [⟨"https://b", "b.zip", 0⟩]
    ⟨"https://bad", "bad.zip", 5⟩ (fun _ => none)
    (fun i => if i.filename = "bad.zip" then ⟨true, fun _ => .netError none⟩
              else ⟨false, fun _ => .completed 7⟩)
    (by decide)

/-- C3: a descriptor whose target file already exists with a known
positive expected size equal to the on-disk size is skipped with an empty
trace (in particular no network attempt); consequently, a whole run over
such descriptors reports every file as successful and performs zero
network attempts, and a fetch that succeeded with a positive expected
size leaves the disk in exactly that state, so a second run with no
external changes is skipped. -/
theorem C3_skip_idempotent (files : List FileInfo)
    (fsOf : FileInfo → Option Nat) (envOf : FileInfo → FetchEnv)
    (hmatch : ∀ i ∈ files, 0 < i.size ∧ fsOf i = some i.size) :
    (∀ i ∈ files, download_file i (fsOf i) (envOf i) = ⟨.skipped, fsOf i, []⟩) ∧
    (∀ i ∈ files,
      (download_file i (fsOf i) (envOf i)).events.countP isNetworkEv = 0) ∧
    download_data files fsOf envOf = ⟨files.length, files.length, 0⟩ ∧
    (∀ (i : FileInfo) (f0 : Option Nat) (e1 e2 : FetchEnv) (n : Nat),
      0 < i.size → (download_file i f0 e1).outcome = .success n →
      download_file i (download_file i f0 e1).fs e2 =
        ⟨.skipped, some i.size, []⟩) := by
  have hskip : ∀ i ∈ files, download_file i (fsOf i) (envOf i) = ⟨.skipped, fsOf i, []⟩ := by
    intro i hi
    obtain ⟨hpos, hfs⟩ := hmatch i hi
    rw [hfs]
    simp [download_file, skipCheck, hpos]
  refine ⟨hskip, ?_, ?_, ?_⟩
  · intro i hi
    rw [hskip i hi]
    rfl
  · rw [download_data_eq]
    have h1 : files.countP
        (fun i => countsAsSuccess (download_file i (fsOf i) (envOf i)).outcome) =
        files.length := by
      rw [List.countP_eq_length]
      intro i hi
      rw [hskip i hi]
      rfl
    have h2 : files.countP
        (fun i => !countsAsSuccess (download_file i (fsOf i) (envOf i)).outcome) = 0 := by
      rw [List.countP_eq_zero]
      intro i hi
      rw [hskip i hi]
      simp [countsAsSuccess]
    rw [h1, h2]
  · intro i f0 e1 e2 n hpos hsucc
    have hfs_eq : (download_file i f0 e1).fs = some i.size := by
      by_cases hsk : skipCheck i f0
      · rw [download_file] at hsucc
        simp only [hsk, if_true] at hsucc
        exact absurd hsucc (by simp)
      · by_cases hmk : e1.mkdirFails
        · rw [download_file] at hsucc
          simp only [hsk, Bool.false_eq_true, if_false, hmk, if_true] at hsucc
          exact absurd hsucc (by simp)
        · rw [download_file] at hsucc ⊢
          simp only [hsk, Bool.false_eq_true, if_false, hmk] at hsucc ⊢
          obtain ⟨hgood, hres⟩ := attemptLoop_success i e1 max_retries 0 f0
            [.mkdirCall] n hsucc
          have hn : n = i.size := by
            simp [sizeBad, hpos] at hgood
            exact hgood
          rw [hres, hn]
    rw [hfs_eq, download_file]
    simp [skipCheck, hpos]

/-- Witness for C3: one descriptor with expected size 5 and an on-disk
file of size 5 is skipped, and the run reports (1, 1, 0). -/
theorem C3_skip_idempotent_witness :
    (∀ i ∈ ([⟨"https://a", "a.zip", 5⟩] : List FileInfo),
      0 < i.size ∧ (fun (_ : FileInfo) => (some 5 : Option Nat)) i = some i.size) ∧
    download_data [⟨"https://a", "a.zip", 5⟩] (fun _ => some 5)
        (fun _ => ⟨false, fun _ => .netError none⟩) =
      ⟨([⟨"https://a", "a.zip", 5⟩] : List FileInfo).length,
       ([⟨"https://a", "a.zip", 5⟩] : List FileInfo).length, 0⟩ := by
  refine ⟨by decide, ?_⟩
  exact (C3_skip_idempotent [⟨"https://a", "a.zip", 5⟩] (fun _ => some 5)
    (fun _ => ⟨false, fun _ => .netError none⟩) (by decide)).2.2.1

/-- C4: with a known positive expected size, a completed attempt whose
byte count differs from the expected size deletes the file and continues
the retry loop as a failed attempt; a fetch is never reported successful
with a byte count other than the expected size, a successful fetch leaves
exactly the expected bytes on disk, and a fetch that exhausts its
attempts leaves no file behind. -/
theorem C4_size_verification (info : FileInfo) (fs0 : Option Nat)
    (env : FetchEnv) (hpos : 0 < info.size) :
    (∀ r a fs evs n, env.attempts a = .completed n → n ≠ info.size →
      attemptLoop info env (r + 1) a fs evs =
        attemptLoop info env r (a + 1) none
          (evs ++ [.networkAttempt a, .fileWrite n, .unlinkCall])) ∧
    (∀ n, (download_file info fs0 env).outcome = .success n →
      n = info.size ∧ (download_file info fs0 env).fs = some info.size) ∧
    (∀ k, (download_file info fs0 env).outcome = .failed k →
      (download_file info fs0 env).fs = none) := by
  refine ⟨?_, ?_, ?_⟩
  · intro r a fs evs n henv hne
    have hbad : sizeBad info n = true := by
      simp [sizeBad, hpos, hne]
    rw [attemptLoop, henv]
    simp only [hbad, if_true]
  · intro n hsucc
    by_cases hsk : skipCheck info fs0
    · rw [download_file] at hsucc
      simp only [hsk, if_true] at hsucc
      exact absurd hsucc (by simp)
    · by_cases hmk : env.mkdirFails
      · rw [download_file] at hsucc
        simp only [hsk, Bool.false_eq_true, if_false, hmk, if_true] at hsucc
        exact absurd hsucc (by simp)
      · rw [download_file] at hsucc ⊢
        simp only [hsk, Bool.false_eq_true, if_false, hmk] at hsucc ⊢
        obtain ⟨hgood, hres⟩ := attemptLoop_success info env max_retries 0 fs0
          [.mkdirCall] n hsucc
        have hn : n = info.size := by
          simp [sizeBad, hpos] at hgood
          exact hgood
        rw [← hn]
        exact ⟨rfl, hres⟩
  · intro k hfailed
    by_cases hsk : skipCheck info fs0
    · rw [download_file] at hfailed
      simp only [hsk, if_true] at hfailed
      exact absurd hfailed (by simp)
    · by_cases hmk : env.mkdirFails
      · rw [download_file] at hfailed
        simp only [hsk, Bool.false_eq_true, if_false, hmk, if_true] at hfailed
        exact absurd hfailed (by simp)
      · rw [download_file] at hfailed ⊢
        simp only [hsk, Bool.false_eq_true, if_false, hmk] at hfailed ⊢
        exact attemptLoop_failed_fs info env max_retries 0 fs0 [.mkdirCall] k
          (by decide) hfailed

/-- Witness for C4: a fetch whose three attempts all complete with 3
bytes against an expected size of 5 ends failed with no file on disk. -/
theorem C4_size_verification_witness :
    0 < (⟨"https://a", "a.zip", 5⟩ : FileInfo).size ∧
    (download_file ⟨"https://a", "a.zip", 5⟩ none
        ⟨false, fun _ => .completed 3⟩).outcome = .failed 3 ∧
    (download_file ⟨"https://a", "a.zip", 5⟩ none
        ⟨false, fun _ => .completed 3⟩).fs = none := by
  refine ⟨by decide, by decide, ?_⟩
  exact (C4_size_verification ⟨"https://a", "a.zip", 5⟩ none
    ⟨false, fun _ => .completed 3⟩ (by decide)).2.2 3 (by decide)

/-- C5: when the skip check does not fire and the mkdir call succeeds,
a fetch whose every attempt fails makes exactly max_retries = 3 attempts
and returns failure carrying that attempt count, while a fetch whose
attempt j completes with an acceptable byte count (matching the expected
size, or any count at all when the expected size is unknown) after j
failing attempts returns success with the bytes written. -/
theorem C5_retry_budget (info : FileInfo) (fs0 : Option Nat) (env : FetchEnv)
    (hskip : skipCheck info fs0 = false) (hmk : env.mkdirFails = false) :
    max_retries = 3 ∧
    ((∀ k, attemptFails info (env.attempts k) = true) →
      (download_file info fs0 env).outcome = .failed max_retries) ∧
    (∀ j n, j < max_retries →
      (∀ t, t < j → attemptFails info (env.attempts t) = true) →
      env.attempts j = .completed n → sizeBad info n = false →
      (download_file info fs0 env).outcome = .success n) := by
  refine ⟨rfl, ?_, ?_⟩
  · intro hall
    rw [download_file]
    simp only [hskip, Bool.false_eq_true, if_false, hmk]
    have h := attemptLoop_all_fail info env max_retries 0 fs0 [.mkdirCall]
      (fun j hj => by simpa using hall j)
    simpa using h
  · intro j n hj hprev henv hgood
    rw [download_file]
    simp only [hskip, Bool.false_eq_true, if_false, hmk]
    exact (attemptLoop_first_success info env j max_retries 0 fs0 [.mkdirCall] n
      hj (fun t ht => by simpa using hprev t ht) (by simpa using henv) hgood).1

/-- Witness for C5: an always-erroring fetch fails after exactly 3
attempts, and a fetch that errors once and then completes with the
expected 5 bytes succeeds with 5 bytes written. -/
theorem C5_retry_budget_witness :
    (download_file ⟨"https://a", "a.zip", 5⟩ none
        ⟨false, fun _ => .netError none⟩).outcome = .failed max_retries ∧
    (download_file ⟨"https://a", "a.zip", 5⟩ none
        ⟨false, fun k => if k = 0 then .netError none else .completed 5⟩).outcome =
      .success 5 := by
  constructor
  · exact (C5_retry_budget ⟨"https://a", "a.zip", 5⟩ none
      ⟨false, fun _ => .netError none⟩ (by decide) (by decide)).2.1
      (fun k => by rfl)
  · exact (C5_retry_budget ⟨"https://a", "a.zip", 5⟩ none
      ⟨false, fun k => if k = 0 then .netError none else .completed 5⟩
      (by decide) (by decide)).2.2 1 5 (by decide)
      (fun t ht => by rw [show t = 0 from by omega]; rfl) (by rfl) (by decide)

/-- C6 counterexample: expected size 5, attempt 0 completes with 3 bytes
(a failed attempt by size mismatch) and attempts remain, yet the trace of
the whole fetch contains no sleep at all: the code path of lines 255-258
deletes the file and continues without the backoff sleep of line 269,
contradicting the claim that every failed attempt with attempts remaining
is followed by a sleep of base_backoff * 2 ^ attempt_index. -/
theorem C6_counterexample :
    attemptFails (⟨"https://a", "a.zip", 5⟩ : FileInfo)
      ((⟨false, fun k => if k = 0 then .completed 3 else .completed 5⟩ :
        FetchEnv).attempts 0) = true ∧
    (download_file ⟨"https://a", "a.zip", 5⟩ none
        ⟨false, fun k => if k = 0 then .completed 3 else .completed 5⟩).events =
      [.mkdirCall, .networkAttempt 0, .fileWrite 3, .unlinkCall,
       .networkAttempt 1, .fileWrite 5] ∧
    (download_file ⟨"https://a", "a.zip", 5⟩ none
        ⟨false, fun k => if k = 0 then .completed 3 else .completed 5⟩).events.countP
      isSleepEv = 0 := by
  decide

/-- C6 as amended: after every failed attempt the target file state is
cleared before the next attempt (the recursive call receives an absent
file), and a backoff sleep of 2 ^ attempt_index seconds (the code
hardcodes time.sleep(2 ** attempt), i.e. base_backoff = 1) occurs exactly
when attempts remain and the failure was exception-based (transport,
HTTP, or write error); after a size-mismatch failure the loop retries
immediately with no sleep. -/
theorem C6_amended_backoff (info : FileInfo) (env : FetchEnv) (r a : Nat)
    (fs : Option Nat) (evs : List Event)
    (hfail : attemptFails info (env.attempts a) = true) :
    ∃ tail, attemptLoop info env (r + 1) a fs evs =
        attemptLoop info env r (a + 1) none (evs ++ tail) ∧
      ((Event.sleepCall (2 ^ a) ∈ tail) ↔
        (0 < r ∧ isException (env.attempts a) = true)) ∧
      (∀ s, Event.sleepCall s ∈ tail → s = 2 ^ a) := by
  cases henv : env.attempts a with
  | completed n =>
    have hbad : sizeBad info n = true := by
      rw [henv] at hfail
      simpa [attemptFails] using hfail
    refine ⟨[.networkAttempt a, .fileWrite n, .unlinkCall], ?_, ?_, ?_⟩
    · rw [attemptLoop, henv]
      simp only [hbad, if_true]
    · simp [isException]
    · intro s hs
      simp at hs
  | netError f =>
    refine ⟨[.networkAttempt a]
        ++ (if f.isSome then [.unlinkCall] else [])
        ++ (if 0 < r then [.sleepCall (2 ^ a)] else []), ?_, ?_, ?_⟩
    · rw [attemptLoop, henv]
      simp [List.append_assoc]
    · by_cases hr : 0 < r
      · simp [hr, isException]
      · simp [hr, isException]
    · intro s hs
      by_cases hf : f.isSome
      · by_cases hr : 0 < r
        · simp [hf, hr] at hs
          exact hs
        · simp [hf, hr] at hs
      · by_cases hr : 0 < r
        · simp [hf, hr] at hs
          exact hs
        · simp [hf, hr] at hs
  | writeError f =>
    refine ⟨[.networkAttempt a]
        ++ (if f.isSome then [.unlinkCall] else [])
        ++ (if 0 < r then [.sleepCall (2 ^ a)] else []), ?_, ?_, ?_⟩
    · rw [attemptLoop, henv]
      simp [List.append_assoc]
    · by_cases hr : 0 < r
      · simp [hr, isException]
      · simp [hr, isException]
    · intro s hs
      by_cases hf : f.isSome
      · by_cases hr : 0 < r
        · simp [hf, hr] at hs
          exact hs
        · simp [hf, hr] at hs
      · by_cases hr : 0 < r
        · simp [hf, hr] at hs
          exact hs
        · simp [hf, hr] at hs

/-- Witness for C6 as amended: a transport error at attempt 0 of a
three-attempt budget is followed by a backoff step exposing a sleep of
2 ^ 0 = 1 second. -/
theorem C6_amended_backoff_witness :
    attemptFails (⟨"https://a", "a.zip", 5⟩ : FileInfo)
      ((⟨false, fun _ => .netError none⟩ : FetchEnv).attempts 0) = true ∧
    ∃ tail,
      attemptLoop ⟨"https://a", "a.zip", 5⟩ ⟨false, fun _ => .netError none⟩
          (2 + 1) 0 none [.mkdirCall] =
        attemptLoop ⟨"https://a", "a.zip", 5⟩ ⟨false, fun _ => .netError none⟩
          2 1 none ([.mkdirCall] ++ tail) ∧
      ((Event.sleepCall (2 ^ 0) ∈ tail) ↔
        (0 < 2 ∧ isException ((⟨false, fun _ => .netError none⟩ :
          FetchEnv).attempts 0) = true)) ∧
      (∀ s, Event.sleepCall s ∈ tail → s = 2 ^ 0) := by
  refine ⟨by decide, ?_⟩
  exact C6_amended_backoff ⟨"https://a", "a.zip", 5⟩
    ⟨false, fun _ => .netError none⟩ 2 0 none [.mkdirCall] (by decide)

/-- C7 counterexample: a filesystem write error at attempt 0 (modelled by
the writeError behaviour, which the code catches with the same broad
except clause as network errors at line 263) does not fail the descriptor
immediately: the fetch is retried and returns success after the second
attempt, contradicting the claim that file-write failures are
non-retryable. -/
theorem C7_counterexample :
    ((⟨false, fun k => if k = 0 then .writeError (some 2) else .completed 5⟩ :
        FetchEnv).attempts 0) = .writeError (some 2) ∧
    (download_file ⟨"https://a", "a.zip", 5⟩ none
        ⟨false, fun k => if k = 0 then .writeError (some 2) else .completed 5⟩).outcome =
      .success 5 := by
  decide

/-- C7 as amended: a directory-creation failure (the mkdir call at line
238 sits outside every try block) raises out of the fetch before any
network attempt is made, and the engine catches the task's exception and
records the descriptor as exactly one immediate failure, leaving the
other descriptors' accounting untouched; a file-write failure inside an
attempt, by contrast, is caught by the broad except clause and retried
like a network error. -/
theorem C7_amended_mkdir (info : FileInfo) (fs0 : Option Nat) (env : FetchEnv)
    (hskip : skipCheck info fs0 = false) (hmk : env.mkdirFails = true) :
    download_file info fs0 env = ⟨.raised, fs0, [.mkdirCall]⟩ ∧
    (download_file info fs0 env).events.countP isNetworkEv = 0 ∧
    countsAsSuccess FetchOutcome.raised = false ∧
    (∀ (l1 l2 : List FileInfo) (fsOf : FileInfo → Option Nat)
        (envOf : FileInfo → FetchEnv),
      fsOf info = fs0 → envOf info = env →
      download_data (l1 ++ info :: l2) fsOf envOf =
        ⟨(l1 ++ l2).length + 1,
         (download_data (l1 ++ l2) fsOf envOf).downloaded,
         (download_data (l1 ++ l2) fsOf envOf).failed + 1⟩) := by
  have hdf : download_file info fs0 env = ⟨.raised, fs0, [.mkdirCall]⟩ := by
    rw [download_file]
    simp only [hskip, Bool.false_eq_true, if_false, hmk, if_true]
  refine ⟨hdf, by rw [hdf]; rfl, rfl, ?_⟩
  intro l1 l2 fsOf envOf hfs henv
  refine download_data_isolate l1 l2 info fsOf envOf ?_
  rw [hfs, henv, hdf]
  rfl

/-- Witness for C7 as amended: a failing mkdir on a fresh target raises
with an empty network trace, and a three-descriptor batch containing it
reports one more failure than the batch without it. -/
theorem C7_amended_mkdir_witness :
    skipCheck (⟨"https://bad", "bad.zip", 5⟩ : FileInfo) none = false ∧
    (⟨true, fun _ => .netError none⟩ : FetchEnv).mkdirFails = true ∧
    download_file ⟨"https://bad", "bad.zip", 5⟩ none
        ⟨true, fun _ => .netError none⟩ =
      ⟨.raised, none, [.mkdirCall]⟩ ∧
    (download_file ⟨"https://bad", "bad.zip", 5⟩ none
        ⟨true, fun _ => .netError none⟩).events.countP isNetworkEv = 0 := by
  refine ⟨by decide, by decide, ?_, ?_⟩
  · exact (C7_amended_mkdir ⟨"https://bad", "bad.zip", 5⟩ none
      ⟨true, fun _ => .netError none⟩ (by decide) (by decide)).1
  · exact (C7_amended_mkdir ⟨"https://bad", "bad.zip", 5⟩ none
      ⟨true, fun _ => .netError none⟩ (by decide) (by decide)).2.1

/-- C8 counterexample: a descriptor with an empty remote URL is not
rejected by any validation: with every request raising (as an empty URL
makes httpx do), the fetch still runs the full retry loop, making 3
attempts and sleeping twice for backoff, instead of failing fast without
consuming an attempt. -/
theorem C8_counterexample :
    (⟨"", "a.zip", 5⟩ : FileInfo).url = "" ∧
    (download_file ⟨"", "a.zip", 5⟩ none
        ⟨false, fun _ => .netError none⟩).outcome = .failed 3 ∧
    (download_file ⟨"", "a.zip", 5⟩ none
        ⟨false, fun _ => .netError none⟩).events.countP isNetworkEv = 3 ∧
    (download_file ⟨"", "a.zip", 5⟩ none
        ⟨false, fun _ => .netError none⟩).events.countP isSleepEv = 2 := by
  decide

/-- C8 as amended: the engine applies no validation to descriptors; a
descriptor with an empty remote URL or empty target filename whose
request attempts all raise goes through the ordinary retry loop and is
recorded as failed after max_retries attempts, and the rest of the batch
is unaffected (the failing descriptor adds exactly one failure and the
other descriptors contribute exactly what they contribute without it). -/
theorem C8_amended_no_validation (info : FileInfo) (fs0 : Option Nat)
    (env : FetchEnv)
    (_hempty : info.url = "" ∨ info.filename = "")
    (hskip : skipCheck info fs0 = false) (hmk : env.mkdirFails = false)
    (hall : ∀ k, attemptFails info (env.attempts k) = true) :
    (download_file info fs0 env).outcome = .failed max_retries ∧
    (∀ (l1 l2 : List FileInfo) (fsOf : FileInfo → Option Nat)
        (envOf : FileInfo → FetchEnv),
      fsOf info = fs0 → envOf info = env →
      download_data (l1 ++ info :: l2) fsOf envOf =
        ⟨(l1 ++ l2).length + 1,
         (download_data (l1 ++ l2) fsOf envOf).downloaded,
         (download_data (l1 ++ l2) fsOf envOf).failed + 1⟩) := by
  have hout : (download_file info fs0 env).outcome = .failed max_retries := by
    rw [download_file]
    simp only [hskip, Bool.false_eq_true, if_false, hmk]
    have h := attemptLoop_all_fail info env max_retries 0 fs0 [.mkdirCall]
      (fun j _ => by simpa using hall j)
    simpa using h
  refine ⟨hout, ?_⟩
  intro l1 l2 fsOf envOf hfs henv
  refine download_data_isolate l1 l2 info fsOf envOf ?_
  rw [hfs, henv, hout]
  rfl

/-- Witness for C8 as amended: an empty-URL descriptor with
always-raising requests fails after the full retry budget, and a batch of
it plus one good descriptor reports one failure more than the good
descriptor alone. -/
theorem C8_amended_no_validation_witness :
    (download_file ⟨"", "a.zip", 5⟩ none
        ⟨false, fun _ => .netError none⟩).outcome = .failed max_retries ∧
    download_data (([] : List FileInfo) ++ (⟨"", "a.zip", 5⟩ : FileInfo) ::
        ([⟨"https://b", "b.zip", 0⟩] : List FileInfo))
        (fun _ => none)
        (fun i => if i.url = "" then ⟨false, fun _ => .netError none⟩
                  else ⟨false, fun _ => .completed 7⟩) =
      ⟨(([] : List FileInfo) ++ ([⟨"https://b", "b.zip", 0⟩] : List FileInfo)).length + 1,
       (download_data (([] : List FileInfo) ++
            ([⟨"https://b", "b.zip", 0⟩] : List FileInfo))
          (fun _ => none)
          (fun i => if i.url = "" then ⟨false, fun _ => .netError none⟩
                    else ⟨false, fun _ => .completed 7⟩)).downloaded,
       (download_data (([] : List FileInfo) ++
            ([⟨"https://b", "b.zip", 0⟩] : List FileInfo))
          (fun _ => none)
          (fun i => if i.url = "" then ⟨false, fun _ => .netError none⟩
                    else ⟨false, fun _ => .completed 7⟩)).failed + 1⟩ := by
  constructor
  · exact (C8_amended_no_validation ⟨"", "a.zip", 5⟩ none
      ⟨false, fun _ => .netError none⟩ (Or.inl rfl) (by decide) (by decide)
      (fun k => by rfl)).1
  · exact (C8_amended_no_validation ⟨"", "a.zip", 5⟩ none
      ⟨false, fun _ => .netError none⟩ (Or.inl rfl) (by decide) (by decide)
      (fun k => by rfl)).2 [] [⟨"https://b", "b.zip", 0⟩] (fun _ => none)
      (fun i => if i.url = "" then ⟨false, fun _ => .netError none⟩
                else ⟨false, fun _ => .completed 7⟩) rfl rfl

/-- Unfolding of the splitter loop when the range is non-empty. -/
theorem splitGo_pos (e cs : Nat) (h : cs ≤ e) :
    splitGo e cs = (cs, min (cs + 6) e) :: splitGo e (min (cs + 6) e + 1) := by
  rw [splitGo]
  simp [h]

/-- Unfolding of the splitter loop when the range is exhausted. -/
theorem splitGo_neg (e cs : Nat) (h : ¬cs ≤ e) : splitGo e cs = [] := by
  rw [splitGo]
  simp [h]

/-- Structure of the splitter loop output: starting at cs with cs ≤ e,
the chunk list is non-empty, starts at cs, ends at e, every chunk is a
well-formed window of at most 7 days within bounds, consecutive chunks
are contiguous, and every day of the range is covered by exactly one
chunk. -/
theorem splitGo_spec (e : Nat) :
    ∀ cs, cs ≤ e →
      splitGo e cs ≠ [] ∧
      (splitGo e cs).head?.map Prod.fst = some cs ∧
      (splitGo e cs).getLast?.map Prod.snd = some e ∧
      (∀ p ∈ splitGo e cs, cs ≤ p.1 ∧ p.1 ≤ p.2 ∧ p.2 ≤ p.1 + 6 ∧ p.2 ≤ e) ∧
      List.Chain' (fun p q => q.1 = p.2 + 1) (splitGo e cs) ∧
      (∀ d, cs ≤ d → d ≤ e →
        (splitGo e cs).countP
          (fun p => decide (p.1 ≤ d) && decide (d ≤ p.2)) = 1) := by
  have main : ∀ n cs, e + 1 - cs ≤ n → cs ≤ e →
      splitGo e cs ≠ [] ∧
      (splitGo e cs).head?.map Prod.fst = some cs ∧
      (splitGo e cs).getLast?.map Prod.snd = some e ∧
      (∀ p ∈ splitGo e cs, cs ≤ p.1 ∧ p.1 ≤ p.2 ∧ p.2 ≤ p.1 + 6 ∧ p.2 ≤ e) ∧
      List.Chain' (fun p q => q.1 = p.2 + 1) (splitGo e cs) ∧
      (∀ d, cs ≤ d → d ≤ e →
        (splitGo e cs).countP
          (fun p => decide (p.1 ≤ d) && decide (d ≤ p.2)) = 1) := by
    intro n
    induction n with
    | zero =>
      intro cs hn hcs
      omega
    | succ n ih =>
      intro cs hn hcs
      have hm1 : cs ≤ min (cs + 6) e := le_min (by omega) hcs
      have hm2 : min (cs + 6) e ≤ e := min_le_right _ _
      have hm3 : min (cs + 6) e ≤ cs + 6 := min_le_left _ _
      rw [splitGo_pos e cs hcs]
      by_cases hnext : min (cs + 6) e + 1 ≤ e
      · obtain ⟨hTne, hThead, hTlast, hTmem, hTchain, hTcount⟩ :=
          ih (min (cs + 6) e + 1) (by omega) hnext
        obtain ⟨t, ts, hT⟩ := List.exists_cons_of_ne_nil hTne
        have ht1 : t.1 = min (cs + 6) e + 1 := by
          rw [hT] at hThead
          simp at hThead
          exact hThead
        refine ⟨by simp, by simp, ?_, ?_, ?_, ?_⟩
        · rw [hT, List.getLast?_cons_cons, ← hT]
          exact hTlast
        · intro p hp
          rcases List.mem_cons.1 hp with hph | hpt
          · subst hph
            exact ⟨le_refl _, by omega, by omega, hm2⟩
          · obtain ⟨ha, hb, hc, hd⟩ := hTmem p hpt
            exact ⟨by omega, hb, hc, hd⟩
        · rw [hT]
          refine List.chain'_cons.2 ⟨?_, ?_⟩
          · simpa using ht1
          · rw [← hT]
            exact hTchain
        · intro d hd1 hd2
          rw [List.countP_cons]
          by_cases hdm : d ≤ min (cs + 6) e
          · have hzero : (splitGo e (min (cs + 6) e + 1)).countP
                (fun p => decide (p.1 ≤ d) && decide (d ≤ p.2)) = 0 := by
              rw [List.countP_eq_zero]
              intro p hp
              have := (hTmem p hp).1
              simp only [Bool.and_eq_true, decide_eq_true_eq]
              omega
            rw [hzero]
            simp only [Bool.and_eq_true, decide_eq_true_eq]
            have : (cs ≤ d ∧ d ≤ min (cs + 6) e) := ⟨hd1, hdm⟩
            simp [this.1, this.2]
          · have hone := hTcount d (by omega) hd2
            rw [hone]
            simp only [Bool.and_eq_true, decide_eq_true_eq]
            have : ¬(cs ≤ d ∧ d ≤ min (cs + 6) e) := by omega
            simp [hdm]
      · have hend : min (cs + 6) e = e := by omega
        rw [splitGo_neg e (min (cs + 6) e + 1) hnext]
        refine ⟨by simp, by simp, ?_, ?_, ?_, ?_⟩
        · simp [hend]
        · intro p hp
          rcases List.mem_cons.1 hp with hph | hpt
          · subst hph
            exact ⟨le_refl _, by omega, by omega, hm2⟩
          · simp at hpt
        · simp
        · intro d hd1 hd2
          simp only [List.countP_cons, List.countP_nil, Bool.and_eq_true,
            decide_eq_true_eq]
          have hda : cs ≤ d := hd1
          have hdb : d ≤ min (cs + 6) e := by omega
          simp [hda, hdb]
  intro cs hcs
  exact main (e + 1 - cs) cs (le_refl _) hcs

/-- C10: for any day numbers s ≤ e, the date-range splitter returns a
non-empty chunk list whose first chunk starts at s and last chunk ends at
e, every chunk is a window of at most 7 calendar days (end ≤ start + 6),
consecutive chunks are contiguous (each starts the day after the previous
one ends, which with the window bounds gives chronological order), and
every day of the range is covered by exactly one chunk. -/
theorem C10_split_windows (s e : Nat) (h : s ≤ e) :
    split_date_range s e ≠ [] ∧
    (split_date_range s e).head?.map Prod.fst = some s ∧
    (split_date_range s e).getLast?.map Prod.snd = some e ∧
    (∀ p ∈ split_date_range s e, p.1 ≤ p.2 ∧ p.2 ≤ p.1 + 6) ∧
    List.Chain' (fun p q => q.1 = p.2 + 1) (split_date_range s e) ∧
    (∀ d, s ≤ d → d ≤ e →
      (split_date_range s e).countP
        (fun p => decide (p.1 ≤ d) && decide (d ≤ p.2)) = 1) := by
  obtain ⟨h1, h2, h3, h4, h5, h6⟩ := splitGo_spec e s h
  exact ⟨h1, h2, h3, fun p hp => ⟨(h4 p hp).2.1, (h4 p hp).2.2.1⟩, h5, h6⟩

/-- Witness for C10: the ten-day range of days 0 to 9. -/
theorem C10_split_windows_witness :
    (0 : Nat) ≤ 9 ∧
    (split_date_range 0 9 ≠ [] ∧
     (split_date_range 0 9).head?.map Prod.fst = some 0 ∧
     (split_date_range 0 9).getLast?.map Prod.snd = some 9 ∧
     (∀ p ∈ split_date_range 0 9, p.1 ≤ p.2 ∧ p.2 ≤ p.1 + 6) ∧
     List.Chain' (fun p q => q.1 = p.2 + 1) (split_date_range 0 9) ∧
     (∀ d, 0 ≤ d → d ≤ 9 →
       (split_date_range 0 9).countP
         (fun p => decide (p.1 ≤ d) && decide (d ≤ p.2)) = 1)) :=
  ⟨by decide, C10_split_windows 0 9 (by decide)⟩

end BybitDownloader
